import Mathlib

/-!
Shallow embedding of the op-batcher channel manager
(src/lib/optimism/op-batcher/batcher/channel_manager.go) together with the
channel / builder / codec layer it orchestrates.  The manager code is
translated statement by statement from channel_manager.go; the channel layer
is not part of the sources, so it is modelled from the specification
(sections 4.1 to 4.3 of spec.md), with the opaque compression codec
instantiated by a deterministic one-frame-per-block codec.

Go pointer identity between channelQueue, currentChannel and txChannels is
modelled by an arena: channels live in a list indexed by their creation
order, and the queue, the current-channel field and the tx index store
arena indices.  Panics are modelled by Option (none = panic).
-/

namespace Batcher

/-- A 256-bit hash value (common.Hash).  The zero value models the empty
hash used by the tip check in AddL2Block. -/
structure Hash where
  val : Nat
deriving DecidableEq, Repr

/-- The zero hash, common.Hash default value. -/
def hashZero : Hash := ⟨0⟩

/-- eth.BlockID: a (hash, number) pair. -/
structure BlockID where
  hash : Hash
  number : Nat
deriving DecidableEq, Repr

/-- An L2 block (types.Block) with the fields the manager reads: hash,
parent hash, number, and the L1 origin info derivable from it. -/
structure L2Block where
  hash : Hash
  parentHash : Hash
  number : Nat
  l1OriginHash : Hash
  l1OriginNumber : Nat
deriving DecidableEq, Repr

/-- eth.ToBlockID on an L2 block. -/
def L2Block.toBlockID (b : L2Block) : BlockID := ⟨b.hash, b.number⟩

/-- eth.L2BlockRef with the fields pruneSafeBlocks reads. -/
structure L2BlockRef where
  hash : Hash
  number : Nat
  l1Origin : BlockID
deriving DecidableEq, Repr

/-- eth.SyncStatus with the fields CheckExpectedProgress reads. -/
structure SyncStatus where
  currentL1 : BlockID
  safeL2 : L2BlockRef
deriving DecidableEq, Repr

/-- ChannelConfig: immutable per channel.  useBlobs drives the DA-modality
equivalence check in TxData; the frame and timeout budgets parameterise the
modelled codec. -/
structure ChannelConfig where
  useBlobs : Bool
  targetNumFrames : Nat
  maxFrameSize : Nat
  maxChannelDuration : Nat
  subSafetyMargin : Nat
  batchType : Nat
deriving DecidableEq, Repr

/-- A frame: a slice of the compressed channel output.  The payload is
opaque; the modelled codec emits one frame per block carrying the block
hash, and a single header-only frame for an empty timed-out channel. -/
structure Frame where
  data : Nat
deriving DecidableEq, Repr

/-- A transaction ID: globally unique because it pairs the arena id of the
issuing channel with a per-channel counter.  Modelled from the spec:
TxIDs are opaque, totally ordered, and never reused. -/
structure TxID where
  chId : Nat
  nonce : Nat
deriving DecidableEq, Repr

/-- txData: the payload handed to the L1 transaction manager. -/
structure txData where
  id : TxID
  frame : Frame
deriving DecidableEq, Repr

/-- Result of getReadyChannel: the arena index of a ready channel, or the
io.EOF sentinel (NoData). -/
inductive ReadyRes where
  | noData
  | ready (cid : Nat)
deriving DecidableEq, Repr

/-- Result of TxData / nextTxData: tx data, or the io.EOF sentinel. -/
inductive TxDataRes where
  | noData
  | data (d : txData)
deriving DecidableEq, Repr

/-- Error returned by AddL2Block. -/
inductive AddErr where
  | errReorg
deriving DecidableEq, Repr

/-- Modelled from the spec: a channel (spec sections 4.2 and 4.3 plus the
codec of section 4.1, which are not among the sources).  It composes the
builder state (blocks, L1 origin range, fullness) with the frame-submission
lifecycle (pending frames, in-flight txs, confirmations, timeout flag).
The opaque codec is instantiated as one frame per block, with fullness
reached when the block count meets the targetNumFrames budget. -/
structure Channel where
  id : Nat
  cfg : ChannelConfig
  openL1Block : Nat
  maxInclusionBlock : Nat
  blocks : List L2Block
  latestL2Ref : BlockID
  latestL1OriginRef : BlockID
  full : Bool
  framed : Bool
  pendingFrames : List Frame
  inflight : List (TxID × Frame)
  confirmedCount : Nat
  totalFrames : Nat
  timedOut : Bool
  everDispatched : Bool
  txCounter : Nat
deriving DecidableEq, Repr

/-- Modelled from the spec: newChannel seeds the builder with the prior
l1OriginLastSubmittedChannel number as its openL1Block, and derives
maxInclusionBlock as openL1Block + maxChannelDuration - subSafetyMargin. -/
def newChannel (id : Nat) (cfg : ChannelConfig) (openL1Block : Nat) : Channel :=
  { id := id
    cfg := cfg
    openL1Block := openL1Block
    maxInclusionBlock := openL1Block + cfg.maxChannelDuration - cfg.subSafetyMargin
    blocks := []
    latestL2Ref := ⟨hashZero, 0⟩
    latestL1OriginRef := ⟨hashZero, 0⟩
    full := false
    framed := false
    pendingFrames := []
    inflight := []
    confirmedCount := 0
    totalFrames := 0
    timedOut := false
    everDispatched := false
    txCounter := 0 }

/-- Placeholder channel used for out-of-range arena lookups, which are
unreachable from the manager code (Go would dereference a nil pointer). -/
def dummyChannel : Channel :=
  newChannel 0 ⟨false, 0, 0, 0, 0, 0⟩ 0

namespace Channel

/-- Modelled from the spec: HasTxData holds when a frame is pending
(frames requeued by TxFailed re-enter pendingFrames). -/
def HasTxData (c : Channel) : Bool :=
  !c.pendingFrames.isEmpty

/-- Modelled from the spec: NoneSubmitted means no byte of the channel has
reached L1: nothing confirmed, nothing in flight, nothing ever dispatched. -/
def NoneSubmitted (c : Channel) : Bool :=
  c.confirmedCount == 0 && c.inflight.isEmpty && !c.everDispatched

/-- Modelled from the spec: NextTxData pops one pending frame, assigns a
fresh TxID and records the frame as in flight.  Callers check HasTxData
first; on an empty deque the channel is returned unchanged. -/
def NextTxData (c : Channel) : txData × Channel :=
  match c.pendingFrames with
  | [] => (⟨⟨c.id, c.txCounter⟩, ⟨0⟩⟩, c)
  | f :: rest =>
      let tid : TxID := ⟨c.id, c.txCounter⟩
      (⟨tid, f⟩,
        { c with pendingFrames := rest
                 inflight := c.inflight ++ [(tid, f)]
                 txCounter := c.txCounter + 1
                 everDispatched := true })

/-- Association-list lookup keyed by TxID. -/
def findTx (id : TxID) : List (TxID × Frame) → Option Frame
  | [] => none
  | (k, v) :: rest => if k = id then some v else findTx id rest

/-- Association-list removal keyed by TxID. -/
def eraseTx (id : TxID) : List (TxID × Frame) → List (TxID × Frame)
  | [] => []
  | (k, v) :: rest => if k = id then rest else (k, v) :: eraseTx id rest

/-- Modelled from the spec: TxFailed moves the frame from inflight back to
the head of pendingFrames, preserving frame order across retries.  An
unknown id is ignored. -/
def TxFailed (c : Channel) (id : TxID) : Channel :=
  match findTx id c.inflight with
  | none => c
  | some f =>
      { c with pendingFrames := f :: c.pendingFrames
               inflight := eraseTx id c.inflight }

/-- Modelled from the spec: TxConfirmed removes the frame from inflight and
counts the confirmation; when the inclusion block exceeds
maxInclusionBlock it latches timedOut and reports true. -/
def TxConfirmed (c : Channel) (id : TxID) (inclusionBlock : BlockID) :
    Bool × Channel :=
  match findTx id c.inflight with
  | none => (false, c)
  | some _ =>
      let c₁ := { c with inflight := eraseTx id c.inflight
                         confirmedCount := c.confirmedCount + 1 }
      if c.maxInclusionBlock < inclusionBlock.number then
        (true, { c₁ with timedOut := true })
      else
        (false, c₁)

/-- Modelled from the spec: fully submitted when every frame confirmed and
the builder is full. -/
def isFullySubmitted (c : Channel) : Bool :=
  c.confirmedCount == c.totalFrames && c.full

/-- Modelled from the spec: the latched timeout flag. -/
def isTimedOut (c : Channel) : Bool :=
  c.timedOut

/-- Modelled from the spec: latest L2 block reference of the builder. -/
def LatestL2 (c : Channel) : BlockID :=
  c.latestL2Ref

/-- Modelled from the spec: latest L1 origin of the blocks in the builder. -/
def LatestL1Origin (c : Channel) : BlockID :=
  c.latestL1OriginRef

/-- Modelled from the spec: AddBlock appends the block to the builder and
updates the L1-origin / latest-L2 tracking; a full builder rejects the
block with ChannelFullError (none) leaving state untouched.  The codec
budget is reached when the block count meets targetNumFrames. -/
def AddBlock (c : Channel) (b : L2Block) : Option Channel :=
  if c.full then none
  else
    let blocks := c.blocks ++ [b]
    some { c with blocks := blocks
                  latestL2Ref := ⟨b.hash, b.number⟩
                  latestL1OriginRef := ⟨b.l1OriginHash, b.l1OriginNumber⟩
                  full := decide (c.cfg.targetNumFrames ≤ blocks.length) }

/-- Modelled from the spec: CheckTimeout marks the builder full when the
channel duration budget has elapsed since openL1Block; idempotent. -/
def CheckTimeout (c : Channel) (currentL1 : Nat) : Channel :=
  if c.openL1Block + c.cfg.maxChannelDuration ≤ currentL1 then
    { c with full := true }
  else c

/-- Modelled from the spec: OutputFrames materialises frames from the
codec.  The modelled codec emits all frames when the channel closes: one
frame per block, or a single header-only frame for an empty timed-out
channel.  The framed flag makes the emission happen once. -/
def OutputFrames (c : Channel) : Channel :=
  if c.full && !c.framed then
    let fs := if c.blocks.isEmpty then [(⟨0⟩ : Frame)]
              else c.blocks.map (fun b => (⟨b.hash.val⟩ : Frame))
    { c with pendingFrames := c.pendingFrames ++ fs
             totalFrames := c.totalFrames + fs.length
             framed := true }
  else c

end Channel

/-- The channel manager state (struct channelManager).  The channels live
in an arena list indexed by creation order; channelQueue, currentChannel
and txChannels refer to arena indices, modelling Go pointer sharing.  The
config provider is an external collaborator queried per call; its answer
is passed to TxData as an argument. -/
structure ChannelManager where
  arena : List Channel
  blocks : List L2Block
  blockCursor : Nat
  l1OriginLastSubmittedChannel : BlockID
  defaultCfg : ChannelConfig
  tip : Hash
  currentChannel : Option Nat
  channelQueue : List Nat
  txChannels : List (TxID × Nat)
deriving DecidableEq, Repr

/-- Arena lookup; out-of-range indices are unreachable from the manager
code (Go would hold a dangling pointer instead). -/
def getCh (s : ChannelManager) (cid : Nat) : Channel :=
  s.arena.getD cid dummyChannel

/-- Arena update at an index, the Lean image of mutation through a Go
channel pointer. -/
def setCh (s : ChannelManager) (cid : Nat) (c : Channel) : ChannelManager :=
  { s with arena := s.arena.set cid c }

/-- NewChannelManager: the fresh manager pulls its initial defaultCfg from
the config provider (whose answer is the argument). -/
def NewChannelManager (p : ChannelConfig) : ChannelManager :=
  { arena := []
    blocks := []
    blockCursor := 0
    l1OriginLastSubmittedChannel := ⟨hashZero, 0⟩
    defaultCfg := p
    tip := hashZero
    currentChannel := none
    channelQueue := []
    txChannels := [] }

/-- Association-list lookup in the tx index. -/
def findTxCh (id : TxID) : List (TxID × Nat) → Option Nat
  | [] => none
  | (k, v) :: rest => if k = id then some v else findTxCh id rest

/-- Association-list removal in the tx index (map delete). -/
def eraseTxCh (id : TxID) : List (TxID × Nat) → List (TxID × Nat)
  | [] => []
  | (k, v) :: rest => if k = id then eraseTxCh id rest else (k, v) :: eraseTxCh id rest

namespace ChannelManager

/-- Clear resets the block queue, cursor, tip, current channel, channel
queue and tx index and seeds the L1-origin watermark.  defaultCfg,
cfgProvider and the arena (now holding only unreferenced channels) are
untouched. -/
def Clear (s : ChannelManager) (l1OriginLastSubmittedChannel : BlockID) :
    ChannelManager :=
  { s with blocks := []
           blockCursor := 0
           l1OriginLastSubmittedChannel := l1OriginLastSubmittedChannel
           tip := hashZero
           currentChannel := none
           channelQueue := []
           txChannels := [] }

/-- pendingBlocks: blocks in the queue not yet consumed by a channel. -/
def pendingBlocks (s : ChannelManager) : Nat :=
  s.blocks.length - s.blockCursor

/-- TxFailed: look up the owning channel in the tx index, delete the
mapping and forward the failure; unknown ids are ignored. -/
def TxFailed (s : ChannelManager) (id : TxID) : ChannelManager :=
  match findTxCh id s.txChannels with
  | none => s
  | some cid =>
      let s₁ := { s with txChannels := eraseTxCh id s.txChannels }
      setCh s₁ cid ((getCh s₁ cid).TxFailed id)

/-- rewindToBlock: move the cursor back to the queue position of the given
block.  Mirrors the Go code: the position is number minus head number, the
queue is indexed before any check (an out-of-range position, including the
wrapped negative case and the empty queue, is an index panic), and a
failed hash-or-cursor check is an explicit panic.  none = panic. -/
def rewindToBlock (s : ChannelManager) (block : BlockID) : Option ChannelManager :=
  match s.blocks.head? with
  | none => none
  | some b0 =>
      if block.number < b0.number then none
      else
        match s.blocks.get? (block.number - b0.number) with
        | none => none
        | some blk =>
            if blk.hash = block.hash ∧ block.number - b0.number < s.blockCursor then
              some { s with blockCursor := block.number - b0.number }
            else none

/-- Truncate the queue right before the first occurrence of the given
channel, the image of the queue[:i] truncation loop; a queue without the
channel is returned unchanged. -/
def truncAt (cid : Nat) : List Nat → List Nat
  | [] => []
  | x :: rest => if x = cid then [] else x :: truncAt cid rest

/-- handleChannelInvalidated: requeue the channel blocks by rewinding the
cursor to its first block (skipped for a blockless channel), truncate the
channel queue at the channel, dropping it and all newer channels, and
reset currentChannel.  none = panic from the rewind. -/
def handleChannelInvalidated (s : ChannelManager) (cid : Nat) :
    Option ChannelManager :=
  let c := getCh s cid
  let afterRewind : Option ChannelManager :=
    match c.blocks.head? with
    | none => some s
    | some blk => s.rewindToBlock blk.toBlockID
  match afterRewind with
  | none => none
  | some s₁ =>
      some { s₁ with channelQueue := truncAt cid s₁.channelQueue
                     currentChannel := none }

/-- TxConfirmed: look up the owning channel, delete the mapping, forward
the confirmation; a timed-out channel is invalidated.  Unknown ids are
ignored.  none = panic from the invalidation rewind. -/
def TxConfirmed (s : ChannelManager) (id : TxID) (inclusionBlock : BlockID) :
    Option ChannelManager :=
  match findTxCh id s.txChannels with
  | none => some s
  | some cid =>
      let s₁ := { s with txChannels := eraseTxCh id s.txChannels }
      let r := (getCh s₁ cid).TxConfirmed id inclusionBlock
      let s₂ := setCh s₁ cid r.2
      if r.1 then s₂.handleChannelInvalidated cid else some s₂

/-- nextTxData: dequeue one frame from the channel, update the L1-origin
watermark and record the fresh TxID in the tx index.  A nil channel or a
channel without tx data yields the io.EOF sentinel. -/
def nextTxData (s : ChannelManager) (cidOpt : Option Nat) :
    ChannelManager × TxDataRes :=
  match cidOpt with
  | none => (s, .noData)
  | some cid =>
      let c := getCh s cid
      if !c.HasTxData then (s, .noData)
      else
        let r := c.NextTxData
        let s₁ := setCh s cid r.2
        let s₂ :=
          if s.l1OriginLastSubmittedChannel.number < c.LatestL1Origin.number then
            { s₁ with l1OriginLastSubmittedChannel := c.LatestL1Origin }
          else s₁
        ({ s₂ with txChannels := (r.1.id, cid) :: eraseTxCh r.1.id s₂.txChannels },
          .data r.1)

/-- ensureChannelWithSpace: keep a current channel that still has space,
otherwise create a fresh channel from defaultCfg, seeded with the
L1-origin watermark, append it to the queue and make it current. -/
def ensureChannelWithSpace (s : ChannelManager) (_l1Head : BlockID) :
    ChannelManager :=
  if (match s.currentChannel with
      | some cid => !(getCh s cid).full
      | none => false) then s
  else
    let pc := newChannel s.arena.length s.defaultCfg
        s.l1OriginLastSubmittedChannel.number
    { s with arena := s.arena ++ [pc]
             currentChannel := some s.arena.length
             channelQueue := s.channelQueue ++ [s.arena.length] }

/-- The processBlocks loop body: feed blocks to the builder until the
queue is exhausted, the codec rejects a block as full, or the builder
becomes full right after an add; returns the updated channel and the
count of consumed blocks. -/
def processLoop : Channel → List L2Block → Channel × Nat
  | c, [] => (c, 0)
  | c, b :: rest =>
      match c.AddBlock b with
      | none => (c, 0)
      | some c₁ =>
          if c₁.full then (c₁, 1)
          else
            let r := processLoop c₁ rest
            (r.1, r.2 + 1)

/-- processBlocks: run the loop from the cursor and advance the cursor by
the number of blocks consumed. -/
def processBlocks (s : ChannelManager) : ChannelManager :=
  match s.currentChannel with
  | none => s
  | some cid =>
      let r := processLoop (getCh s cid) (s.blocks.drop s.blockCursor)
      { s with arena := s.arena.set cid r.1
               blockCursor := s.blockCursor + r.2 }

/-- registerL1Block: run the duration-timeout check of the current builder
against the supplied L1 head. -/
def registerL1Block (s : ChannelManager) (l1Head : BlockID) : ChannelManager :=
  match s.currentChannel with
  | none => s
  | some cid => setCh s cid ((getCh s cid).CheckTimeout l1Head.number)

/-- outputFrames: ask the current builder to materialise frames. -/
def outputFrames (s : ChannelManager) : ChannelManager :=
  match s.currentChannel with
  | none => s
  | some cid => setCh s cid (getCh s cid).OutputFrames

/-- getReadyChannel: return the first queued channel holding tx data; with
none and no pending block, the io.EOF sentinel; otherwise ingest pending
blocks into a channel with space, run the timeout check, materialise
frames, and return the current channel if it now holds tx data. -/
def getReadyChannel (s : ChannelManager) (l1Head : BlockID) :
    ChannelManager × ReadyRes :=
  match s.channelQueue.find? (fun cid => (getCh s cid).HasTxData) with
  | some cid => (s, .ready cid)
  | none =>
      if s.pendingBlocks = 0 then (s, .noData)
      else
        let s₁ := s.ensureChannelWithSpace l1Head
        let s₂ := s₁.processBlocks
        let s₃ := s₂.registerL1Block l1Head
        let s₄ := s₃.outputFrames
        match s₄.currentChannel with
        | some cid =>
            if (getCh s₄ cid).HasTxData then (s₄, .ready cid) else (s₄, .noData)
        | none => (s₄, .noData)

/-- TxData: fetch a ready channel; a channel already mid-submission, or one
whose DA modality matches the freshly queried provider config, yields its
next frame directly; otherwise the channel is invalidated, defaultCfg is
replaced, and getReadyChannel is re-entered exactly once.  providerCfg is
the answer of the external config provider to this call.  none = panic
from the invalidation rewind. -/
def TxData (s : ChannelManager) (l1Head : BlockID) (providerCfg : ChannelConfig) :
    Option (ChannelManager × TxDataRes) :=
  match s.getReadyChannel l1Head with
  | (s₁, .noData) => some (s₁, .noData)
  | (s₁, .ready cid) =>
      if !(getCh s₁ cid).NoneSubmitted then some (s₁.nextTxData (some cid))
      else
        let newCfg := providerCfg
        if newCfg.useBlobs == s₁.defaultCfg.useBlobs then
          some (s₁.nextTxData (some cid))
        else
          match s₁.handleChannelInvalidated cid with
          | none => none
          | some s₂ =>
              let s₃ := { s₂ with defaultCfg := newCfg }
              match s₃.getReadyChannel l1Head with
              | (s₄, .noData) => some (s₄, .noData)
              | (s₄, .ready cid₂) => some (s₄.nextTxData (some cid₂))

/-- AddL2Block: reject a block that does not extend the tip with ErrReorg
(state unchanged), otherwise append it and advance the tip.  A zero tip
skips the parent check. -/
def AddL2Block (s : ChannelManager) (block : L2Block) :
    ChannelManager × Option AddErr :=
  if s.tip ≠ hashZero ∧ s.tip ≠ block.parentHash then (s, some .errReorg)
  else
    ({ s with blocks := s.blocks ++ [block], tip := block.hash }, none)

/-- pruneSafeBlocks: dequeue blocks that became safe.  Anomalies (safe head
reversed, ahead of the unsafe view, or hash mismatch) trigger a full
Clear; a cursor underflow after the dequeue is a panic (none). -/
def pruneSafeBlocks (s : ChannelManager) (newSafeHead : L2BlockRef) :
    Option ChannelManager :=
  match s.blocks.head? with
  | none => some s
  | some oldest =>
      if newSafeHead.number + 1 = oldest.number then some s
      else if newSafeHead.number + 1 < oldest.number then
        some (s.Clear newSafeHead.l1Origin)
      else
        let n := newSafeHead.number + 1 - oldest.number
        if s.blocks.length < n then some (s.Clear newSafeHead.l1Origin)
        else if (s.blocks.getD (n - 1) oldest).hash ≠ newSafeHead.hash then
          some (s.Clear newSafeHead.l1Origin)
        else if s.blockCursor < n then none
        else some { s with blocks := s.blocks.drop n
                           blockCursor := s.blockCursor - n }

/-- pruneChannels: drop from the head of the channel queue while the
channel latest L2 number is at most the new safe head number. -/
def pruneChannels (s : ChannelManager) (newSafeHead : L2BlockRef) :
    ChannelManager :=
  { s with channelQueue := s.channelQueue.dropWhile (fun cid => decide ((getCh s cid).LatestL2.number ≤ newSafeHead.number)) }

/-- CheckExpectedProgress: report an error (true) when some queued channel
is fully submitted, not timed out, past its max inclusion block at the
current L1, and still beyond the remote safe L2 head.  The Go method only
reads the state. -/
def CheckExpectedProgress (s : ChannelManager) (syncStatus : SyncStatus) : Bool :=
  s.channelQueue.any (fun cid =>
    let c := getCh s cid
    c.isFullySubmitted && !c.isTimedOut &&
      decide (c.maxInclusionBlock < syncStatus.currentL1.number) &&
      decide (syncStatus.safeL2.number < c.LatestL2.number))

end ChannelManager

/-- States reachable from a fresh manager by the public operations (on the
panicking operations, only non-panicking steps produce a next state). -/
inductive Reachable : ChannelManager → Prop where
  | init (p : ChannelConfig) : Reachable (NewChannelManager p)
  | clear (s : ChannelManager) (l1o : BlockID) :
      Reachable s → Reachable (s.Clear l1o)
  | addL2Block (s : ChannelManager) (b : L2Block) :
      Reachable s → Reachable (s.AddL2Block b).1
  | txData (s : ChannelManager) (l1Head : BlockID) (p : ChannelConfig)
      (s' : ChannelManager) (r : TxDataRes) :
      Reachable s → s.TxData l1Head p = some (s', r) → Reachable s'
  | txFailed (s : ChannelManager) (id : TxID) :
      Reachable s → Reachable (s.TxFailed id)
  | txConfirmed (s : ChannelManager) (id : TxID) (incl : BlockID)
      (s' : ChannelManager) :
      Reachable s → s.TxConfirmed id incl = some s' → Reachable s'
  | pruneSafe (s : ChannelManager) (h : L2BlockRef) (s' : ChannelManager) :
      Reachable s → s.pruneSafeBlocks h = some s' → Reachable s'
  | pruneCh (s : ChannelManager) (h : L2BlockRef) :
      Reachable s → Reachable (s.pruneChannels h)

/-!  Concrete fixtures used by witnesses and counterexamples. -/

/-- A calldata config whose one-frame budget closes a channel after a
single block. -/
def cfgX : ChannelConfig := ⟨false, 1, 100, 100, 1, 0⟩

/-- The same config with the blob DA modality. -/
def cfgBlob : ChannelConfig := ⟨true, 1, 100, 100, 1, 0⟩

/-- Sample L2 block number 10. -/
def b10 : L2Block := ⟨⟨110⟩, ⟨109⟩, 10, ⟨201⟩, 5⟩

/-- Sample L2 block number 11, child of b10. -/
def b11 : L2Block := ⟨⟨111⟩, ⟨110⟩, 11, ⟨201⟩, 5⟩

/-- Sample L1 head. -/
def l1X : BlockID := ⟨⟨900⟩, 50⟩

/-- Sample safe head at L2 number 10. -/
def safe10 : L2BlockRef := ⟨⟨110⟩, 10, ⟨⟨201⟩, 5⟩⟩

/-- Fresh manager over cfgX. -/
def mgr0 : ChannelManager := NewChannelManager cfgX

/-- Manager holding the single pending block b10. -/
def mgr1 : ChannelManager := (mgr0.AddL2Block b10).1

/-- Manager after getReadyChannel built and framed a channel for b10. -/
def mgrReady : ChannelManager := (mgr1.getReadyChannel l1X).1

/-- Manager after TxData dispatched the frame of b10 as transaction
(chId 0, nonce 0). -/
def mgrAfterTx : ChannelManager :=
  ((mgr1.TxData l1X cfgX).getD (mgr1, .noData)).1

/-- mgrAfterTx after pruneChannels dropped the fully dispatched channel. -/
def mgrPruned : ChannelManager := mgrAfterTx.pruneChannels safe10

/-!  Small list lemmas. -/

/-- getD at the length of the left part of a concatenation with a
singleton. -/
theorem getD_concat_len {α : Type} (l : List α) (x d : α) :
    (l ++ [x]).getD l.length d = x := by
  induction l with
  | nil => rfl
  | cons a t ih => simp [ih]

/-- Membership survives truncAt. -/
theorem mem_truncAt {cid x : Nat} : ∀ {l : List Nat},
    x ∈ ChannelManager.truncAt cid l → x ∈ l := by
  intro l
  induction l with
  | nil => simp [ChannelManager.truncAt]
  | cons a t ih =>
      by_cases ha : a = cid <;>
        simp only [ChannelManager.truncAt, ha, if_true, if_false, List.mem_cons] <;>
        intro h
      · cases h
      · rcases h with h | h
        · exact Or.inl h
        · exact Or.inr (ih h)

/-- truncAt splits a list containing the target into the kept strict
front part, the target itself, and a dropped tail. -/
theorem truncAt_decomp {cid : Nat} : ∀ {l : List Nat}, cid ∈ l →
    ∃ suffix, l = ChannelManager.truncAt cid l ++ cid :: suffix ∧
      cid ∉ ChannelManager.truncAt cid l := by
  intro l
  induction l with
  | nil => simp
  | cons a t ih =>
      intro hmem
      by_cases ha : a = cid
      · subst ha
        exact ⟨t, by simp [ChannelManager.truncAt]⟩
      · have hmem' : cid ∈ t := by
          rcases List.mem_cons.mp hmem with h | h
          · exact absurd h.symm ha
          · exact h
        rcases ih hmem' with ⟨suffix, hsplit, hnot⟩
        refine ⟨suffix, ?_, ?_⟩
        · simpa [ChannelManager.truncAt, ha] using congrArg (a :: ·) hsplit
        · simp [ChannelManager.truncAt, ha, hnot, Ne.symm ha]

/-- Membership survives eraseTxCh. -/
theorem mem_eraseTxCh {id : TxID} {pr : TxID × Nat} : ∀ {l : List (TxID × Nat)},
    pr ∈ eraseTxCh id l → pr ∈ l := by
  intro l
  induction l with
  | nil => simp [eraseTxCh]
  | cons a t ih =>
      by_cases ha : a.1 = id <;>
        simp only [eraseTxCh, ha, if_true, if_false, List.mem_cons] <;>
        intro h
      · exact Or.inr (ih h)
      · rcases h with h | h
        · exact Or.inl h
        · exact Or.inr (ih h)

/-- Membership survives dropWhile. -/
theorem mem_of_mem_dropWhile {α : Type} {p : α → Bool} {x : α} :
    ∀ {l : List α}, x ∈ l.dropWhile p → x ∈ l := by
  intro l
  induction l with
  | nil => simp
  | cons a t ih =>
      by_cases ha : p a = true <;>
        simp only [List.dropWhile, ha, if_true, if_false, List.mem_cons]
      · intro h
        exact Or.inr (ih h)
      · exact id

/-- dropWhile by a monotone-threshold predicate removes exactly the
elements below the threshold when the list is sorted by the measure. -/
theorem dropWhile_eq_filter_of_sorted {α : Type} (f : α → Nat) (n : Nat) :
    ∀ l : List α, l.Pairwise (fun a b => f a ≤ f b) →
      l.dropWhile (fun a => decide (f a ≤ n)) =
        l.filter (fun a => decide (n < f a)) := by
  intro l
  induction l with
  | nil => intro _; rfl
  | cons a t ih =>
      intro hp
      rcases List.pairwise_cons.mp hp with ⟨ha, ht⟩
      by_cases hle : f a ≤ n
      · simpa [List.dropWhile, List.filter, hle, Nat.not_lt.mpr hle] using ih ht
      · have hlt : n < f a := Nat.not_le.mp hle
        have hall : ∀ b ∈ t, (fun x => decide (n < f x)) b = true := by
          intro b hb
          simpa using Nat.lt_of_lt_of_le hlt (ha b hb)
        simp [List.dropWhile, List.filter, hle, hlt, List.filter_eq_self.mpr hall]

/-!  Well-formedness: the tx index, the channel queue and the current
channel only reference channels that exist in the arena. -/

/-- Arena well-formedness of a manager state. -/
def WF (s : ChannelManager) : Prop :=
  (∀ pr ∈ s.txChannels, pr.2 < s.arena.length) ∧
  (∀ cid ∈ s.channelQueue, cid < s.arena.length) ∧
  (∀ cid, s.currentChannel = some cid → cid < s.arena.length)

/-- WF transfers along states agreeing on the referencing fields and the
arena size. -/
theorem wf_of_fields {s t : ChannelManager} (h : WF s)
    (htx : t.txChannels = s.txChannels) (hq : t.channelQueue = s.channelQueue)
    (hcur : t.currentChannel = s.currentChannel)
    (hlen : t.arena.length = s.arena.length) : WF t := by
  unfold WF at h ⊢
  rw [htx, hq, hcur, hlen]
  exact h

/-- ensureChannelWithSpace either keeps the state or appends one channel. -/
theorem ensure_cases (s : ChannelManager) (l1Head : BlockID) :
    s.ensureChannelWithSpace l1Head = s ∨
    s.ensureChannelWithSpace l1Head =
      { s with arena := s.arena ++ [newChannel s.arena.length s.defaultCfg s.l1OriginLastSubmittedChannel.number]
               currentChannel := some s.arena.length
               channelQueue := s.channelQueue ++ [s.arena.length] } := by
  unfold ChannelManager.ensureChannelWithSpace
  split
  · exact Or.inl rfl
  · exact Or.inr rfl

/-- WF is preserved by ensureChannelWithSpace. -/
theorem wf_ensure {s : ChannelManager} (l1Head : BlockID) (h : WF s) :
    WF (s.ensureChannelWithSpace l1Head) := by
  rcases ensure_cases s l1Head with hc | hc
  · rw [hc]; exact h
  · rw [hc]
    refine ⟨?_, ?_, ?_⟩
    · intro pr hpr
      dsimp only at hpr ⊢
      have := h.1 pr hpr
      simp only [List.length_append, List.length_cons, List.length_nil]
      omega
    · intro cid hcid
      dsimp only at hcid ⊢
      simp only [List.length_append, List.length_cons, List.length_nil]
      rcases List.mem_append.mp hcid with hm | hm
      · have := h.2.1 cid hm
        omega
      · simp only [List.mem_singleton] at hm
        omega
    · intro cid hcid
      dsimp only at hcid ⊢
      simp only [Option.some.injEq] at hcid
      simp only [List.length_append, List.length_cons, List.length_nil]
      omega

/-- WF is preserved by processBlocks. -/
theorem wf_process {s : ChannelManager} (h : WF s) : WF s.processBlocks := by
  unfold ChannelManager.processBlocks
  rcases hc : s.currentChannel with _ | cid
  · exact h
  · exact wf_of_fields h rfl rfl (by simp [hc]) (by simp [List.length_set])

/-- WF is preserved by registerL1Block. -/
theorem wf_register {s : ChannelManager} (l1Head : BlockID) (h : WF s) :
    WF (s.registerL1Block l1Head) := by
  unfold ChannelManager.registerL1Block
  rcases hc : s.currentChannel with _ | cid
  · exact h
  · exact wf_of_fields h rfl rfl (by simp [setCh, hc]) (by simp [setCh, List.length_set])

/-- WF is preserved by outputFrames. -/
theorem wf_output {s : ChannelManager} (h : WF s) : WF s.outputFrames := by
  unfold ChannelManager.outputFrames
  rcases hc : s.currentChannel with _ | cid
  · exact h
  · exact wf_of_fields h rfl rfl (by simp [setCh, hc]) (by simp [setCh, List.length_set])

/-- A successful rewind only moves the block cursor. -/
theorem rewind_some_eq {s s' : ChannelManager} {b : BlockID}
    (h : s.rewindToBlock b = some s') :
    ∃ idx, s' = { s with blockCursor := idx } := by
  unfold ChannelManager.rewindToBlock at h
  rcases hh : s.blocks.head? with _ | b0 <;> simp only [hh] at h
  · exact Option.noConfusion h
  · split at h
    · exact Option.noConfusion h
    · rcases hg : s.blocks.get? (b.number - b0.number) with _ | blk <;>
        simp only [hg] at h
      · exact Option.noConfusion h
      · split at h
        · exact ⟨b.number - b0.number, ((Option.some.injEq _ _).mp h).symm⟩
        · exact Option.noConfusion h

/-- A successful invalidation keeps the arena, the tx index, the config
and the blocks; it truncates the queue and resets the current channel. -/
theorem hci_some_eq {s s' : ChannelManager} {cid : Nat}
    (h : s.handleChannelInvalidated cid = some s') :
    s'.arena = s.arena ∧ s'.txChannels = s.txChannels ∧
    s'.defaultCfg = s.defaultCfg ∧ s'.currentChannel = none ∧
    s'.channelQueue = ChannelManager.truncAt cid s.channelQueue ∧
    s'.blocks = s.blocks := by
  unfold ChannelManager.handleChannelInvalidated at h
  rcases hbs : (getCh s cid).blocks.head? with _ | blk <;> simp only [hbs] at h
  · injection h with h
    subst h
    exact ⟨rfl, rfl, rfl, rfl, rfl, rfl⟩
  · rcases hrw : s.rewindToBlock blk.toBlockID with _ | s₁ <;>
      simp only [hrw] at h
    · exact Option.noConfusion h
    · injection h with h
      subst h
      rcases rewind_some_eq hrw with ⟨idx, hidx⟩
      subst hidx
      exact ⟨rfl, rfl, rfl, rfl, rfl, rfl⟩

/-- WF is preserved by a successful invalidation. -/
theorem wf_hci {s s' : ChannelManager} {cid : Nat} (h : WF s)
    (hs : s.handleChannelInvalidated cid = some s') : WF s' := by
  rcases hci_some_eq hs with ⟨ha, htx, _, hcur, hq, _⟩
  refine ⟨?_, ?_, ?_⟩
  · intro pr hpr
    rw [ha]
    exact h.1 pr (htx ▸ hpr)
  · intro c hc
    rw [ha]
    exact h.2.1 c (mem_truncAt (hq ▸ hc))
  · intro c hc
    rw [hcur] at hc
    cases hc

/-- WF is preserved by nextTxData whenever the requested channel exists. -/
theorem wf_nextTxData {s : ChannelManager} (o : Option Nat) (h : WF s)
    (hb : ∀ cid, o = some cid → cid < s.arena.length) :
    WF (s.nextTxData o).1 := by
  rcases o with _ | cid
  · exact h
  · have hcid : cid < s.arena.length := hb cid rfl
    simp only [ChannelManager.nextTxData]
    split
    · exact h
    · split <;>
        dsimp only [setCh] <;>
        refine ⟨?_, ?_, ?_⟩ <;> intro pr hpr <;>
        simp only [List.length_set, List.mem_cons] at hpr ⊢
      · rcases hpr with hpr | hpr
        · rw [hpr]; exact hcid
        · exact h.1 pr (mem_eraseTxCh hpr)
      · exact h.2.1 pr hpr
      · exact h.2.2 pr hpr
      · rcases hpr with hpr | hpr
        · rw [hpr]; exact hcid
        · exact h.1 pr (mem_eraseTxCh hpr)
      · exact h.2.1 pr hpr
      · exact h.2.2 pr hpr

/-- getReadyChannel preserves WF, and a ready answer references a channel
inside the arena of the returned state. -/
theorem wf_getReadyChannel {s : ChannelManager} (l1Head : BlockID) (h : WF s) :
    WF (s.getReadyChannel l1Head).1 ∧
    (∀ cid, (s.getReadyChannel l1Head).2 = ReadyRes.ready cid →
        cid < (s.getReadyChannel l1Head).1.arena.length) := by
  unfold ChannelManager.getReadyChannel
  rcases hf : s.channelQueue.find? (fun cid => (getCh s cid).HasTxData) with _ | cid
  · simp only [hf]
    split
    · exact ⟨h, by intro cid hc; cases hc⟩
    · have h₄ : WF (((s.ensureChannelWithSpace l1Head).processBlocks.registerL1Block
          l1Head).outputFrames) :=
        wf_output (wf_register l1Head (wf_process (wf_ensure l1Head h)))
      rcases hc : (((s.ensureChannelWithSpace l1Head).processBlocks.registerL1Block
          l1Head).outputFrames).currentChannel with _ | cur
      · simp only [hc]
        exact ⟨h₄, by intro cid hcid; cases hcid⟩
      · simp only [hc]
        split
        · exact ⟨h₄, by
            intro cid hcid
            cases hcid
            exact h₄.2.2 cur hc⟩
        · exact ⟨h₄, by intro cid hcid; cases hcid⟩
  · simp only [hf]
    refine ⟨h, ?_⟩
    intro c hc
    cases hc
    exact h.2.1 cid (List.mem_of_find?_eq_some hf)

/-- TxData preserves WF. -/
theorem wf_txData {s s' : ChannelManager} {l1Head : BlockID}
    {p : ChannelConfig} {r : TxDataRes} (h : WF s)
    (ht : s.TxData l1Head p = some (s', r)) : WF s' := by
  unfold ChannelManager.TxData at ht
  rcases hg : s.getReadyChannel l1Head with ⟨s₁, r₁⟩
  have hwf₁ := (wf_getReadyChannel l1Head h).1
  have hrdy := (wf_getReadyChannel l1Head h).2
  rw [hg] at ht hwf₁ hrdy
  dsimp only at hwf₁ hrdy
  rcases r₁ with _ | cid
  · simp only [] at ht
    injection ht with ht
    have hs := congrArg Prod.fst ht
    dsimp only at hs
    rw [← hs]
    exact hwf₁
  · have hcid : cid < s₁.arena.length := hrdy cid rfl
    simp only [] at ht
    split at ht
    · injection ht with ht
      have hs := congrArg Prod.fst ht
      dsimp only at hs
      rw [← hs]
      exact wf_nextTxData (some cid) hwf₁ (by intro c hc; cases hc; exact hcid)
    · split at ht
      · injection ht with ht
        have hs := congrArg Prod.fst ht
        dsimp only at hs
        rw [← hs]
        exact wf_nextTxData (some cid) hwf₁ (by intro c hc; cases hc; exact hcid)
      · rcases hi : s₁.handleChannelInvalidated cid with _ | s₂ <;>
          simp only [hi] at ht
        · exact Option.noConfusion ht
        · have hwf₂ : WF s₂ := wf_hci hwf₁ hi
          have hwf₃ : WF { s₂ with defaultCfg := p } :=
            wf_of_fields hwf₂ rfl rfl rfl rfl
          rcases hg₂ : ({ s₂ with defaultCfg := p } :
              ChannelManager).getReadyChannel l1Head with ⟨s₄, r₄⟩
          have hwf₄ := (wf_getReadyChannel l1Head hwf₃).1
          have hrdy₄ := (wf_getReadyChannel l1Head hwf₃).2
          rw [hg₂] at ht hwf₄ hrdy₄
          dsimp only at hwf₄ hrdy₄
          rcases r₄ with _ | cid₂
          · simp only [] at ht
            injection ht with ht
            have hs := congrArg Prod.fst ht
            dsimp only at hs
            rw [← hs]
            exact hwf₄
          · simp only [] at ht
            injection ht with ht
            have hs := congrArg Prod.fst ht
            dsimp only at hs
            rw [← hs]
            exact wf_nextTxData (some cid₂) hwf₄
              (by intro c hc; cases hc; exact hrdy₄ cid₂ rfl)

/-- TxFailed preserves WF. -/
theorem wf_txFailed {s : ChannelManager} (id : TxID) (h : WF s) :
    WF (s.TxFailed id) := by
  unfold ChannelManager.TxFailed
  rcases hf : findTxCh id s.txChannels with _ | cid
  · exact h
  · refine ⟨?_, ?_, ?_⟩ <;> intro pr hpr <;>
      simp only [setCh, List.length_set] at hpr ⊢
    · exact h.1 pr (mem_eraseTxCh hpr)
    · exact h.2.1 pr hpr
    · exact h.2.2 pr hpr

/-- TxConfirmed preserves WF. -/
theorem wf_txConfirmed {s s' : ChannelManager} {id : TxID} {incl : BlockID}
    (h : WF s) (ht : s.TxConfirmed id incl = some s') : WF s' := by
  unfold ChannelManager.TxConfirmed at ht
  rcases hf : findTxCh id s.txChannels with _ | cid <;> simp only [hf] at ht
  · injection ht with ht
    cases ht
    exact h
  · have hmid : WF (setCh { s with txChannels := eraseTxCh id s.txChannels } cid
        ((getCh { s with txChannels := eraseTxCh id s.txChannels } cid).TxConfirmed
          id incl).2) := by
      refine ⟨?_, ?_, ?_⟩ <;> intro pr hpr <;>
        simp only [setCh, List.length_set] at hpr ⊢
      · exact h.1 pr (mem_eraseTxCh hpr)
      · exact h.2.1 pr hpr
      · exact h.2.2 pr hpr
    split at ht
    · exact wf_hci hmid ht
    · injection ht with ht
      rw [← ht]
      exact hmid

/-- Clear yields a WF state. -/
theorem wf_clear {s : ChannelManager} (l1o : BlockID) : WF (s.Clear l1o) := by
  refine ⟨?_, ?_, ?_⟩ <;> intro pr hpr <;> simp [ChannelManager.Clear] at hpr

/-- AddL2Block preserves WF. -/
theorem wf_addL2Block {s : ChannelManager} (b : L2Block) (h : WF s) :
    WF (s.AddL2Block b).1 := by
  unfold ChannelManager.AddL2Block
  split
  · exact h
  · exact wf_of_fields h rfl rfl rfl rfl

/-- pruneSafeBlocks preserves WF. -/
theorem wf_pruneSafe {s s' : ChannelManager} {hd : L2BlockRef} (h : WF s)
    (hp : s.pruneSafeBlocks hd = some s') : WF s' := by
  unfold ChannelManager.pruneSafeBlocks at hp
  rcases hh : s.blocks.head? with _ | oldest <;> simp only [hh] at hp
  · injection hp with hp
    cases hp
    exact h
  · split at hp
    · injection hp with hp
      cases hp
      exact h
    · split at hp
      · injection hp with hp
        rw [← hp]
        exact wf_clear hd.l1Origin
      · split at hp
        · injection hp with hp
          rw [← hp]
          exact wf_clear hd.l1Origin
        · split at hp
          · injection hp with hp
            rw [← hp]
            exact wf_clear hd.l1Origin
          · split at hp
            · exact Option.noConfusion hp
            · injection hp with hp
              rw [← hp]
              exact wf_of_fields h rfl rfl rfl rfl

/-- pruneChannels preserves WF. -/
theorem wf_pruneChannels {s : ChannelManager} (hd : L2BlockRef) (h : WF s) :
    WF (s.pruneChannels hd) := by
  refine ⟨?_, ?_, ?_⟩ <;> intro pr hpr <;>
    simp only [ChannelManager.pruneChannels] at hpr ⊢
  · exact h.1 pr hpr
  · exact h.2.1 pr (mem_of_mem_dropWhile hpr)
  · exact h.2.2 pr hpr

/-- Every reachable state is well formed. -/
theorem reachable_wf {s : ChannelManager} (h : Reachable s) : WF s := by
  induction h with
  | init p => exact ⟨by simp [NewChannelManager], by simp [NewChannelManager],
      by intro cid hc; cases hc⟩
  | clear s l1o _ _ => exact wf_clear l1o
  | addL2Block s b _ ih => exact wf_addL2Block b ih
  | txData s l1Head p s' r _ ht ih => exact wf_txData ih ht
  | txFailed s id _ ih => exact wf_txFailed id ih
  | txConfirmed s id incl s' _ ht ih => exact wf_txConfirmed ih ht
  | pruneSafe s hd s' _ hp ih => exact wf_pruneSafe ih hp
  | pruneCh s hd _ ih => exact wf_pruneChannels hd ih

/-!  Field-preservation lemmas used by the TxData ordering proof. -/

/-- ensureChannelWithSpace never touches defaultCfg. -/
theorem ensure_defaultCfg (s : ChannelManager) (l1Head : BlockID) :
    (s.ensureChannelWithSpace l1Head).defaultCfg = s.defaultCfg := by
  rcases ensure_cases s l1Head with h | h <;> rw [h]

/-- processBlocks never touches defaultCfg. -/
theorem process_defaultCfg (s : ChannelManager) :
    s.processBlocks.defaultCfg = s.defaultCfg := by
  unfold ChannelManager.processBlocks
  rcases hc : s.currentChannel with _ | cid <;> simp only [hc]

/-- registerL1Block never touches defaultCfg. -/
theorem register_defaultCfg (s : ChannelManager) (l1Head : BlockID) :
    (s.registerL1Block l1Head).defaultCfg = s.defaultCfg := by
  unfold ChannelManager.registerL1Block
  rcases hc : s.currentChannel with _ | cid <;> (simp only [hc]; try rfl)

/-- outputFrames never touches defaultCfg. -/
theorem output_defaultCfg (s : ChannelManager) :
    s.outputFrames.defaultCfg = s.defaultCfg := by
  unfold ChannelManager.outputFrames
  rcases hc : s.currentChannel with _ | cid <;> (simp only [hc]; try rfl)

/-- getReadyChannel never touches defaultCfg. -/
theorem grc_defaultCfg (s : ChannelManager) (l1Head : BlockID) :
    (s.getReadyChannel l1Head).1.defaultCfg = s.defaultCfg := by
  unfold ChannelManager.getReadyChannel
  rcases hf : s.channelQueue.find? (fun cid => (getCh s cid).HasTxData) with _ | cid <;>
    simp only [hf]
  · split
    · rfl
    · have hchain : (((s.ensureChannelWithSpace l1Head).processBlocks.registerL1Block
          l1Head).outputFrames).defaultCfg = s.defaultCfg := by
        rw [output_defaultCfg, register_defaultCfg, process_defaultCfg, ensure_defaultCfg]
      rcases hc : (((s.ensureChannelWithSpace l1Head).processBlocks.registerL1Block
          l1Head).outputFrames).currentChannel with _ | cur <;> simp only [hc]
      · exact hchain
      · split <;> exact hchain

/-- nextTxData never touches defaultCfg. -/
theorem nextTxData_defaultCfg (s : ChannelManager) (o : Option Nat) :
    (s.nextTxData o).1.defaultCfg = s.defaultCfg := by
  rcases o with _ | cid
  · rfl
  · simp only [ChannelManager.nextTxData]
    split
    · rfl
    · split <;> rfl

/-- nextTxData never touches the channel queue. -/
theorem nextTxData_queue (s : ChannelManager) (o : Option Nat) :
    (s.nextTxData o).1.channelQueue = s.channelQueue := by
  rcases o with _ | cid
  · rfl
  · simp only [ChannelManager.nextTxData]
    split
    · rfl
    · split <;> rfl

/-!  Claim theorems. -/

/-- C7: AddL2Block returns ErrReorg with the whole manager state unchanged
exactly when the tip is nonzero and differs from the parent hash of the
block; otherwise it appends the block to the tail of the block queue,
sets the tip to the block hash, and returns no error. -/
theorem addL2Block_spec (s : ChannelManager) (block : L2Block) :
    (s.tip ≠ hashZero ∧ s.tip ≠ block.parentHash →
        s.AddL2Block block = (s, some AddErr.errReorg)) ∧
    (s.tip = hashZero ∨ s.tip = block.parentHash →
        s.AddL2Block block =
          ({ s with blocks := s.blocks ++ [block], tip := block.hash }, none)) := by
  constructor
  · intro h
    unfold ChannelManager.AddL2Block
    rw [if_pos h]
  · intro h
    unfold ChannelManager.AddL2Block
    rw [if_neg]
    intro hc
    rcases h with h | h
    · exact hc.1 h
    · exact hc.2 h

/-- C7 witness: a mismatching parent is rejected with the state intact,
and the first block is accepted. -/
theorem addL2Block_spec_witness :
    mgr1.AddL2Block b10 = (mgr1, some AddErr.errReorg) ∧
    mgr0.AddL2Block b10 =
      ({ mgr0 with blocks := mgr0.blocks ++ [b10], tip := b10.hash }, none) :=
  ⟨(addL2Block_spec mgr1 b10).1 (by decide),
   (addL2Block_spec mgr0 b10).2 (Or.inl (by decide))⟩

/-- C10: Clear empties the block queue, resets the cursor, clears the tip,
drops the current channel, the channel queue and the tx index, seeds the
L1-origin watermark, and leaves defaultCfg unchanged; the first channel
created by ensureChannelWithSpace afterwards carries that same config. -/
theorem clear_spec (s : ChannelManager) (l1o : BlockID) (l1Head : BlockID) :
    (s.Clear l1o).blocks = [] ∧
    (s.Clear l1o).blockCursor = 0 ∧
    (s.Clear l1o).tip = hashZero ∧
    (s.Clear l1o).currentChannel = none ∧
    (s.Clear l1o).channelQueue = [] ∧
    (s.Clear l1o).txChannels = [] ∧
    (s.Clear l1o).l1OriginLastSubmittedChannel = l1o ∧
    (s.Clear l1o).defaultCfg = s.defaultCfg ∧
    ((s.Clear l1o).ensureChannelWithSpace l1Head).currentChannel =
      some s.arena.length ∧
    (getCh ((s.Clear l1o).ensureChannelWithSpace l1Head) s.arena.length).cfg =
      s.defaultCfg := by
  refine ⟨rfl, rfl, rfl, rfl, rfl, rfl, rfl, rfl, ?_, ?_⟩
  · rfl
  · show ((s.arena ++ [newChannel s.arena.length s.defaultCfg l1o.number]).getD
        s.arena.length dummyChannel).cfg = s.defaultCfg
    rw [getD_concat_len]
    rfl

/-- C9: CheckExpectedProgress reports an error exactly when some queued
channel is fully submitted, not timed out, past its max inclusion block
at the current L1 head, and still ahead of the remote safe L2 head; the
operation reads but never writes the manager state. -/
theorem checkExpectedProgress_spec (s : ChannelManager) (st : SyncStatus) :
    s.CheckExpectedProgress st = true ↔
      ∃ cid ∈ s.channelQueue,
        (getCh s cid).isFullySubmitted = true ∧
        (getCh s cid).isTimedOut = false ∧
        (getCh s cid).maxInclusionBlock < st.currentL1.number ∧
        st.safeL2.number < (getCh s cid).LatestL2.number := by
  simp [ChannelManager.CheckExpectedProgress, List.any_eq_true, Bool.and_eq_true,
    decide_eq_true_eq, Bool.not_eq_true', and_assoc]

/-- C3: with some queued channel holding tx data, getReadyChannel returns
the first such channel in queue order and leaves the state untouched;
with none and an empty pending-block count it returns the NoData sentinel
with no channel. -/
theorem getReadyChannel_spec (s : ChannelManager) (l1Head : BlockID) :
    (∀ cid, s.channelQueue.find? (fun c => (getCh s c).HasTxData) = some cid →
        s.getReadyChannel l1Head = (s, ReadyRes.ready cid)) ∧
    (s.channelQueue.find? (fun c => (getCh s c).HasTxData) = none →
        s.pendingBlocks = 0 →
        s.getReadyChannel l1Head = (s, ReadyRes.noData)) := by
  constructor
  · intro cid hf
    unfold ChannelManager.getReadyChannel
    simp only [hf]
  · intro hf hp
    unfold ChannelManager.getReadyChannel
    simp only [hf]
    rw [if_pos hp]

/-- C3 witness: the freshly framed channel is returned untouched, and an
empty manager yields the sentinel. -/
theorem getReadyChannel_spec_witness :
    mgrReady.getReadyChannel l1X = (mgrReady, ReadyRes.ready 0) ∧
    mgr0.getReadyChannel l1X = (mgr0, ReadyRes.noData) :=
  ⟨(getReadyChannel_spec mgrReady l1X).1 0 (by decide),
   (getReadyChannel_spec mgr0 l1X).2 (by decide) (by decide)⟩

/-- A closed channel whose latest L2 block is number 20, sitting in the
arena at index 0. -/
def chHigh : Channel := { newChannel 0 cfgX 0 with latestL2Ref := ⟨⟨120⟩, 20⟩ }

/-- A closed channel whose latest L2 block is number 5, sitting in the
arena at index 1. -/
def chLow : Channel := { newChannel 1 cfgX 0 with latestL2Ref := ⟨⟨105⟩, 5⟩ }

/-- A manager whose queue holds the higher channel before the lower one. -/
def sC8 : ChannelManager :=
  { NewChannelManager cfgX with arena := [chHigh, chLow], channelQueue := [0, 1] }

/-- The same two channels queued in nondecreasing latest-L2 order. -/
def sC8sorted : ChannelManager :=
  { NewChannelManager cfgX with arena := [chHigh, chLow], channelQueue := [1, 0] }

/-- C8 counterexample: channel 1 has latest L2 number 5, at most the safe
head number 10, yet pruneChannels keeps it because the loop stops at the
head channel with latest L2 number 20: not every channel at or below the
safe head is removed. -/
theorem pruneChannels_counterexample :
    (getCh sC8 1).LatestL2.number ≤ safe10.number ∧
    1 ∈ (sC8.pruneChannels safe10).channelQueue := by decide

/-- C8 amended: pruneChannels removes the maximal head run of channels
whose latest L2 number is at most the safe head number; when the queue is
ordered by nondecreasing latest L2 (the queue invariant), that run is
exactly the set of such channels, so the kept queue is the filter of the
strictly newer ones; the block queue and the cursor are untouched. -/
theorem pruneChannels_amended (s : ChannelManager) (h : L2BlockRef)
    (hsorted : s.channelQueue.Pairwise
      (fun a b => (getCh s a).LatestL2.number ≤ (getCh s b).LatestL2.number)) :
    (s.pruneChannels h).channelQueue =
      s.channelQueue.filter
        (fun cid => decide (h.number < (getCh s cid).LatestL2.number)) ∧
    (s.pruneChannels h).blocks = s.blocks ∧
    (s.pruneChannels h).blockCursor = s.blockCursor := by
  refine ⟨?_, rfl, rfl⟩
  exact dropWhile_eq_filter_of_sorted
    (fun cid => (getCh s cid).LatestL2.number) h.number _ hsorted

/-- C8 amended witness: on the sorted queue the old channel is dropped and
the newer one survives, with blocks and cursor intact. -/
theorem pruneChannels_amended_witness :
    (sC8sorted.pruneChannels safe10).channelQueue =
      sC8sorted.channelQueue.filter
        (fun cid => decide (safe10.number < (getCh sC8sorted cid).LatestL2.number)) ∧
    (sC8sorted.pruneChannels safe10).blocks = sC8sorted.blocks ∧
    (sC8sorted.pruneChannels safe10).blockCursor = sC8sorted.blockCursor :=
  pruneChannels_amended sC8sorted safe10 (by decide)

/-- C4 counterexample: with one pending block number 10, an unconsumed
cursor 0 and the matching safe head 10, the count to dequeue is 1 and all
side conditions of the claim hold, yet pruneSafeBlocks panics on the
cursor underflow instead of clamping the cursor at 0. -/
theorem pruneSafeBlocks_counterexample :
    0 < safe10.number + 1 - b10.number ∧
    safe10.number + 1 - b10.number ≤ mgr1.blocks.length ∧
    (mgr1.blocks.getD (safe10.number - b10.number) b10).hash = safe10.hash ∧
    mgr1.blockCursor = 0 ∧
    mgr1.pruneSafeBlocks safe10 = none := by decide

/-- C4 amended: under the claim side conditions, pruneSafeBlocks dequeues
exactly the computed count of blocks and subtracts it from the cursor when
the cursor is at least that count; when the cursor is smaller the dequeue
underflows the cursor and the operation panics. -/
theorem pruneSafeBlocks_amended (s : ChannelManager) (h : L2BlockRef)
    (b0 : L2Block) (hb : s.blocks.head? = some b0) (hge : b0.number ≤ h.number)
    (hlen : h.number + 1 - b0.number ≤ s.blocks.length)
    (hhash : (s.blocks.getD (h.number - b0.number) b0).hash = h.hash) :
    (h.number + 1 - b0.number ≤ s.blockCursor →
        s.pruneSafeBlocks h =
          some { s with blocks := s.blocks.drop (h.number + 1 - b0.number)
                        blockCursor := s.blockCursor - (h.number + 1 - b0.number) }) ∧
    (s.blockCursor < h.number + 1 - b0.number →
        s.pruneSafeBlocks h = none) := by
  have hne1 : ¬(h.number + 1 = b0.number) := by omega
  have hne2 : ¬(h.number + 1 < b0.number) := by omega
  have hlen' : ¬(s.blocks.length < h.number + 1 - b0.number) := by omega
  have hidx : h.number + 1 - b0.number - 1 = h.number - b0.number := by omega
  have hhash' : ¬((s.blocks.getD (h.number + 1 - b0.number - 1) b0).hash ≠ h.hash) := by
    rw [hidx]
    exact not_not_intro hhash
  constructor
  · intro hcur
    unfold ChannelManager.pruneSafeBlocks
    simp only [hb]
    rw [if_neg hne1, if_neg hne2, if_neg hlen', if_neg hhash',
      if_neg (by omega : ¬(s.blockCursor < h.number + 1 - b0.number))]
  · intro hcur
    unfold ChannelManager.pruneSafeBlocks
    simp only [hb]
    rw [if_neg hne1, if_neg hne2, if_neg hlen', if_neg hhash', if_pos hcur]

/-- Manager with two blocks both already consumed by a channel. -/
def sW4 : ChannelManager :=
  { mgr0 with blocks := [b10, b11], blockCursor := 2 }

/-- C4 amended witness: with the cursor at 2 the single safe block is
dequeued and the cursor moves to 1; with the cursor at 0 the same prune
panics. -/
theorem pruneSafeBlocks_amended_witness :
    sW4.pruneSafeBlocks safe10 =
      some { sW4 with blocks := sW4.blocks.drop (safe10.number + 1 - b10.number)
                      blockCursor := sW4.blockCursor - (safe10.number + 1 - b10.number) } ∧
    mgr1.pruneSafeBlocks safe10 = none :=
  ⟨(pruneSafeBlocks_amended sW4 safe10 b10 (by decide) (by decide) (by decide)
      (by decide)).1 (by decide),
   (pruneSafeBlocks_amended mgr1 safe10 b10 (by decide) (by decide) (by decide)
      (by decide)).2 (by decide)⟩

/-- C5 counterexample: b10 is present in the block queue at position 0
with a matching hash, the cursor 0 is not strictly greater than that
position, and rewindToBlock panics, where the claim promises an unchanged
cursor without a panic. -/
theorem rewindToBlock_counterexample :
    mgr1.blocks.get? (b10.toBlockID.number - b10.number) = some b10 ∧
    b10.hash = b10.toBlockID.hash ∧
    mgr1.blockCursor ≤ b10.toBlockID.number - b10.number ∧
    mgr1.rewindToBlock b10.toBlockID = none := by decide

/-- C5 amended: rewindToBlock panics exactly when the block is absent from
the queue position derived from its number or the cursor is not strictly
greater than that position; when the block is present there and the cursor
is strictly greater, the cursor is set to the position. -/
theorem rewindToBlock_amended (s : ChannelManager) (b : BlockID) :
    (s.blocks.head? = none → s.rewindToBlock b = none) ∧
    (∀ b0, s.blocks.head? = some b0 →
      (s.rewindToBlock b = some { s with blockCursor := b.number - b0.number } ↔
        (b0.number ≤ b.number ∧
         (∃ blk, s.blocks.get? (b.number - b0.number) = some blk ∧
            blk.hash = b.hash) ∧
         b.number - b0.number < s.blockCursor)) ∧
      (s.rewindToBlock b = none ↔
        ¬(b0.number ≤ b.number ∧
          (∃ blk, s.blocks.get? (b.number - b0.number) = some blk ∧
             blk.hash = b.hash) ∧
          b.number - b0.number < s.blockCursor))) := by
  constructor
  · intro hh
    unfold ChannelManager.rewindToBlock
    simp only [hh]
  · intro b0 hh
    unfold ChannelManager.rewindToBlock
    simp only [hh]
    by_cases h1 : b.number < b0.number
    · rw [if_pos h1]
      refine ⟨⟨fun hx => Option.noConfusion hx,
               fun hr => absurd hr.1 (Nat.not_le.mpr h1)⟩,
              ⟨fun _ hr => absurd hr.1 (Nat.not_le.mpr h1), fun _ => rfl⟩⟩
    · rw [if_neg h1]
      have h1' : b0.number ≤ b.number := Nat.not_lt.mp h1
      rcases hg : s.blocks.get? (b.number - b0.number) with _ | blk
      · refine ⟨⟨fun hx => Option.noConfusion hx, fun hr => ?_⟩,
                ⟨fun _ hr => ?_, fun _ => rfl⟩⟩
        · rcases hr.2.1 with ⟨blk, hblk, _⟩
          exact Option.noConfusion hblk
        · rcases hr.2.1 with ⟨blk, hblk, _⟩
          exact Option.noConfusion hblk
      · dsimp only
        by_cases h2 : blk.hash = b.hash ∧ b.number - b0.number < s.blockCursor
        · rw [if_pos h2]
          refine ⟨⟨fun _ => ⟨h1', ⟨blk, rfl, h2.1⟩, h2.2⟩, fun _ => rfl⟩,
                  ⟨fun hx => Option.noConfusion hx,
                   fun hn => absurd ⟨h1', ⟨blk, rfl, h2.1⟩, h2.2⟩ hn⟩⟩
        · rw [if_neg h2]
          refine ⟨⟨fun hx => Option.noConfusion hx, fun hr => ?_⟩,
                  ⟨fun _ hr => ?_, fun _ => rfl⟩⟩
          · rcases hr with ⟨hle, ⟨blk', hblk', hhash'⟩, hcur⟩
            injection hblk' with hblk'
            subst hblk'
            exact absurd ⟨hhash', hcur⟩ h2
          · rcases hr with ⟨hle, ⟨blk', hblk', hhash'⟩, hcur⟩
            injection hblk' with hblk'
            subst hblk'
            exact h2 ⟨hhash', hcur⟩

/-- C5 amended witness: with both queue blocks consumed, rewinding to b11
moves the cursor back from 2 to position 1. -/
theorem rewindToBlock_amended_witness :
    sW4.rewindToBlock b11.toBlockID =
      some { sW4 with blockCursor := b11.toBlockID.number - b10.number } :=
  ((rewindToBlock_amended sW4 b11.toBlockID).2 b10 (by decide)).1.mpr
    ⟨by decide, ⟨b11, by decide, by decide⟩, by decide⟩

/-- A channel holding the single block b10, arena index 0. -/
def chC6 : Channel := { newChannel 0 cfgX 0 with blocks := [b10] }

/-- Manager whose queued channel 0 holds b10 while the cursor sits at 0. -/
def sC6 : ChannelManager :=
  { NewChannelManager cfgX with arena := [chC6], channelQueue := [0]
                                blocks := [b10], blockCursor := 0 }

/-- sC6 with the block consumed, so the rewind condition holds. -/
def sC6b : ChannelManager := { sC6 with blockCursor := 1 }

/-- A blockless channel at arena index 0. -/
def chE : Channel := newChannel 0 cfgX 0

/-- Manager whose queued channel 0 has no blocks. -/
def sE : ChannelManager :=
  { NewChannelManager cfgX with arena := [chE], channelQueue := [0] }

/-- C6 counterexample: channel 0 is present in the queue and its builder
has a block, yet handleChannelInvalidated panics (because the cursor is
not ahead of the block position) instead of truncating the queue and
resetting the current channel. -/
theorem handleChannelInvalidated_counterexample :
    0 ∈ sC6.channelQueue ∧ (getCh sC6 0).blocks ≠ [] ∧
    sC6.handleChannelInvalidated 0 = none := by decide

/-- C6 amended: when the builder has no blocks the rewind is skipped and
only the queue truncation and the current-channel reset happen; when it
has blocks, the same happens on top of a successful rewind to the first
block, and a failing rewind turns the whole operation into a panic; the
truncation keeps exactly the channels strictly older than the given one. -/
theorem handleChannelInvalidated_amended (s : ChannelManager) (cid : Nat) :
    ((getCh s cid).blocks = [] →
        s.handleChannelInvalidated cid =
          some { s with channelQueue := ChannelManager.truncAt cid s.channelQueue
                        currentChannel := none }) ∧
    (∀ blk rest, (getCh s cid).blocks = blk :: rest →
        ∀ s₁, s.rewindToBlock blk.toBlockID = some s₁ →
          s.handleChannelInvalidated cid =
            some { s₁ with channelQueue := ChannelManager.truncAt cid s₁.channelQueue
                           currentChannel := none }) ∧
    (∀ blk rest, (getCh s cid).blocks = blk :: rest →
        s.rewindToBlock blk.toBlockID = none →
        s.handleChannelInvalidated cid = none) ∧
    (cid ∈ s.channelQueue →
        ∃ suffix, s.channelQueue = ChannelManager.truncAt cid s.channelQueue
            ++ cid :: suffix ∧
          cid ∉ ChannelManager.truncAt cid s.channelQueue) := by
  refine ⟨?_, ?_, ?_, ?_⟩
  · intro hbl
    have hh : (getCh s cid).blocks.head? = none := by rw [hbl]; rfl
    unfold ChannelManager.handleChannelInvalidated
    simp only [hh]
  · intro blk rest hbl s₁ hrw
    have hh : (getCh s cid).blocks.head? = some blk := by rw [hbl]; rfl
    unfold ChannelManager.handleChannelInvalidated
    simp only [hh, hrw]
  · intro blk rest hbl hrw
    have hh : (getCh s cid).blocks.head? = some blk := by rw [hbl]; rfl
    unfold ChannelManager.handleChannelInvalidated
    simp only [hh, hrw]
  · intro hmem
    exact truncAt_decomp hmem

/-- C6 amended witness: the blockless channel is dropped without touching
the cursor, and the consumed channel is dropped after the cursor rewinds
to 0. -/
theorem handleChannelInvalidated_amended_witness :
    sE.handleChannelInvalidated 0 =
      some { sE with channelQueue := ChannelManager.truncAt 0 sE.channelQueue
                     currentChannel := none } ∧
    sC6b.handleChannelInvalidated 0 =
      some { { sC6b with blockCursor := 0 } with
               channelQueue := ChannelManager.truncAt 0 sC6b.channelQueue
               currentChannel := none } :=
  ⟨(handleChannelInvalidated_amended sE 0).1 (by decide),
   (handleChannelInvalidated_amended sC6b 0).2.1 b10 [] (by decide)
     { sC6b with blockCursor := 0 } (by decide)⟩

/-- C1: TxData follows the reconfiguration ordering.  A mid-submission
ready channel yields its next frame with defaultCfg untouched and the
answer independent of the provider config; an undispatched channel whose
modality matches the provider yields its next frame with the channel
queue and defaultCfg unchanged; only a differing modality invalidates the
channel, installs the new config, and re-runs getReadyChannel exactly
once for the result or the NoData sentinel. -/
theorem txData_reconfig_spec (s : ChannelManager) (l1Head : BlockID)
    (p : ChannelConfig) (s₁ : ChannelManager) (cid : Nat)
    (h : s.getReadyChannel l1Head = (s₁, ReadyRes.ready cid)) :
    ((getCh s₁ cid).NoneSubmitted = false →
        s.TxData l1Head p = some (s₁.nextTxData (some cid)) ∧
        (∀ q : ChannelConfig, s.TxData l1Head q = s.TxData l1Head p) ∧
        (s₁.nextTxData (some cid)).1.defaultCfg = s.defaultCfg) ∧
    ((getCh s₁ cid).NoneSubmitted = true → p.useBlobs = s.defaultCfg.useBlobs →
        s.TxData l1Head p = some (s₁.nextTxData (some cid)) ∧
        (s₁.nextTxData (some cid)).1.channelQueue = s₁.channelQueue ∧
        (s₁.nextTxData (some cid)).1.defaultCfg = s.defaultCfg) ∧
    ((getCh s₁ cid).NoneSubmitted = true → p.useBlobs ≠ s.defaultCfg.useBlobs →
        s.TxData l1Head p =
          (match s₁.handleChannelInvalidated cid with
           | none => none
           | some s₂ =>
              match ({ s₂ with defaultCfg := p } : ChannelManager).getReadyChannel
                  l1Head with
              | (s₄, ReadyRes.noData) => some (s₄, TxDataRes.noData)
              | (s₄, ReadyRes.ready cid₂) => some (s₄.nextTxData (some cid₂)))) := by
  have hd : s₁.defaultCfg = s.defaultCfg := by
    have hx := grc_defaultCfg s l1Head
    rw [h] at hx
    exact hx
  refine ⟨?_, ?_, ?_⟩
  · intro hns
    refine ⟨?_, ?_, ?_⟩
    · unfold ChannelManager.TxData
      simp only [h]
      rw [if_pos (by rw [hns]; rfl : (!(getCh s₁ cid).NoneSubmitted) = true)]
    · intro q
      unfold ChannelManager.TxData
      simp only [h]
      rw [if_pos (by rw [hns]; rfl : (!(getCh s₁ cid).NoneSubmitted) = true),
        if_pos (by rw [hns]; rfl : (!(getCh s₁ cid).NoneSubmitted) = true)]
    · rw [nextTxData_defaultCfg, hd]
  · intro hns hub
    refine ⟨?_, ?_, ?_⟩
    · unfold ChannelManager.TxData
      simp only [h]
      rw [if_neg (by rw [hns]; simp : ¬((!(getCh s₁ cid).NoneSubmitted) = true)),
        if_pos (by rw [hd, hub]; exact beq_self_eq_true _ :
          (p.useBlobs == s₁.defaultCfg.useBlobs) = true)]
    · exact nextTxData_queue s₁ (some cid)
    · rw [nextTxData_defaultCfg, hd]
  · intro hns hub
    unfold ChannelManager.TxData
    simp only [h]
    rw [if_neg (by rw [hns]; simp : ¬((!(getCh s₁ cid).NoneSubmitted) = true)),
      if_neg (by rw [hd]; simp only [beq_iff_eq]; exact hub :
        ¬((p.useBlobs == s₁.defaultCfg.useBlobs) = true))]

/-- C1 witness: on the single-block manager the ready channel is
undispatched and the provider keeps the calldata modality, so TxData is
the plain nextTxData with queue and config untouched. -/
theorem txData_reconfig_spec_witness :
    mgr1.TxData l1X cfgX = some (mgrReady.nextTxData (some 0)) ∧
    (mgrReady.nextTxData (some 0)).1.channelQueue = mgrReady.channelQueue ∧
    (mgrReady.nextTxData (some 0)).1.defaultCfg = mgr1.defaultCfg :=
  (txData_reconfig_spec mgr1 l1X cfgX mgrReady 0 (by decide)).2.1
    (by decide) (by decide)

/-- The state mgrPruned is reachable: add b10, dispatch its frame, then
prune the channel queue at safe head 10. -/
theorem mgrPruned_reachable : Reachable mgrPruned :=
  Reachable.pruneCh mgrAfterTx safe10
    (Reachable.txData mgr1 l1X cfgX mgrAfterTx (TxDataRes.data ⟨⟨0, 0⟩, ⟨110⟩⟩)
      (Reachable.addL2Block mgr0 b10 (Reachable.init cfgX)) (by decide))

/-- C2 counterexample: in the reachable state mgrPruned the tx index still
maps transaction (0, 0) to channel 0, which pruneChannels has removed
from the channel queue, so not every TxID maps to a queued channel. -/
theorem txChannels_queue_counterexample :
    ∃ s, Reachable s ∧ ∃ pr ∈ s.txChannels, pr.2 ∉ s.channelQueue :=
  ⟨mgrPruned, mgrPruned_reachable, by decide⟩

/-- C2 amended: in every reachable state every TxID key of the tx index
maps to a channel object that exists in the channel arena; the channel may
have been dropped from the channel queue (by pruneChannels or by an
invalidation) while its transactions were still in flight. -/
theorem txChannels_in_arena (s : ChannelManager) (h : Reachable s) :
    ∀ pr ∈ s.txChannels, pr.2 < s.arena.length :=
  (reachable_wf h).1

/-- C2 amended witness: the dangling tx-index entry of mgrPruned still
points into the arena. -/
theorem txChannels_in_arena_witness :
    (((⟨0, 0⟩ : TxID), 0) : TxID × Nat).2 < mgrPruned.arena.length :=
  txChannels_in_arena mgrPruned mgrPruned_reachable ((⟨0, 0⟩ : TxID), 0)
    (by decide)

end Batcher
